import Mathlib

/-!
Shallow embedding of the log2seq core: the statement tokenizer
(log2seq/statement.py), the header dispatcher and record assembly
(log2seq/_common.py), timestamp reformatting and timezone decoding
(log2seq/header.py, log2seq/parse.py), and the HeaderParser item
validation (log2seq/header.py).

Modelling conventions: Python strings are `List Char`; Python dicts are
ordered association lists with unique keys; a raised Python exception is
`Except.error (class, message)`; Python `None` results are `Option`.
Regular-expression objects are embedded, per use, as their observable
match functions (for `re.Pattern.match` truthiness a `Str → Bool`, for a
match object with named groups a `Str → Option MatchObj`); concrete
patterns appearing in counterexamples are embedded as the functions the
Python `re` module computes for them, documented at each definition.
-/

namespace Log2seq

/-- Python exception classes the embedded code can raise. The repository
defines only `ParserDefinitionError` and `LogParseFailure`
(log2seq/_common.py:12-26); the rest are builtin Python exceptions. -/
inductive PyExc where
  | parserDefinitionError
  | logParseFailure
  | valueError
  | typeError
  | keyError
  | indexError
  | nameError
  | assertionError
  | reError
  deriving DecidableEq

/-- A raised Python exception: its class and its message text. -/
abbrev Err := PyExc × List Char

instance {ε α : Type _} [DecidableEq ε] [DecidableEq α] : DecidableEq (Except ε α) :=
  fun x y =>
    match x, y with
    | .ok a, .ok b =>
      if h : a = b then isTrue (by rw [h])
      else isFalse (by intro hh; cases hh; exact h rfl)
    | .ok _, .error _ => isFalse (by intro h; cases h)
    | .error _, .ok _ => isFalse (by intro h; cases h)
    | .error a, .error b =>
      if h : a = b then isTrue (by rw [h])
      else isFalse (by intro hh; cases hh; exact h rfl)

/-- Python strings, modelled as their list of code points. -/
abbrev Str := List Char

/-- Span flags of the statement tokenizer: `_FLAG_UNKNOWN = 0`,
`_FLAG_FIXED = 1`, `_FLAG_SEPARATORS = 2` (statement.py:12-14). -/
inductive Flag where
  | unknown
  | fixed
  | separators
  deriving DecidableEq

/-- One tagged span: text plus flag. -/
abbrev Part := Str × Flag

/-- Embedding of `_ActionBase._is_active_part` (statement.py:115-119): a
part is examined by an action iff its text is nonempty and its flag is
UNKNOWN; FIXED and SEPARATOR parts are passed through as is. -/
def isActivePart (s : Str) (flag : Flag) : Bool :=
  s.length > 0 && flag == Flag.unknown

/-- Python `l_s[-1] = l_s[-1] + part`: extend the last separator. The
source only reaches this with a nonempty list (`prev_isword` is false only
after a separator was appended), so the `[]` case is unreachable. -/
def appendLast (ls : List Str) (x : Str) : List Str :=
  match ls with
  | [] => []
  | [y] => [y ++ x]
  | y :: rest => y :: appendLast rest x

/-- Loop of `StatementParser._separate` (statement.py:50-77): the state is
the accumulated words `lw`, separators `ls` and the `prev_isword` boolean
(initially true); after the loop, a trailing empty separator is appended
when the last part was word-like. -/
def separateGo : List Part → List Str → List Str → Bool → List Str × List Str
  | [], lw, ls, prev => if prev then (lw, ls ++ [[]]) else (lw, ls)
  | (part, flag) :: rest, lw, ls, prev =>
    let cur := flag == Flag.fixed || flag == Flag.unknown
    if cur then
      if part.isEmpty then
        -- empty word: removed (but `prev_isword` is still set to true)
        separateGo rest lw ls cur
      else if prev then
        -- separator is missing: add empty separator
        separateGo rest (lw ++ [part]) (ls ++ [[]]) cur
      else
        separateGo rest (lw ++ [part]) ls cur
    else
      if prev then
        separateGo rest lw (ls ++ [part]) cur
      else
        -- continuous separator: merge into one separator
        separateGo rest lw (appendLast ls part) cur

/-- Embedding of `StatementParser._separate` (statement.py:50-79),
including its final `assert len(l_s) == len(l_w) + 1`: when the computed
lists violate the assertion the Python call raises `AssertionError`
instead of returning. -/
def separate (parts : List Part) : Except Err (List Str × List Str) :=
  let (lw, ls) := separateGo parts [] [] true
  if ls.length = lw.length + 1 then Except.ok (lw, ls)
  else Except.error (PyExc.assertionError, [])

/-- A segmentation action, embedded as its `do` method over part lists. -/
abbrev Action := List Part → List Part

/-- Embedding of `StatementParser.process_line` (statement.py:81-106) with
`verbose=False`: seed the statement as one UNKNOWN span, apply the actions
in the caller order, then `_separate`. -/
def stmtProcessLine (acts : List Action) (statement : Str) :
    Except Err (List Str × List Str) :=
  separate (acts.foldl (fun parts act => act parts) [(statement, Flag.unknown)])

/-- Flag of a maximal character run in `Split`: runs of separator
characters become SEPARATOR spans, other runs stay UNKNOWN. -/
def runFlag (isSep : Bool) : Flag :=
  if isSep then Flag.separators else Flag.unknown

/-- Helper of `splitRuns`: `acc` is the current maximal run (reversed) of
characters whose separator status equals `cls`. -/
def splitRunsGo (p : Char → Bool) (cls : Bool) (acc : List Char) :
    List Char → List Part
  | [] => [(acc.reverse, runFlag cls)]
  | c :: cs =>
    if p c == cls then splitRunsGo p cls (c :: acc) cs
    else (acc.reverse, runFlag cls) :: splitRunsGo p (p c) [c] cs

/-- Embedding of `Split._iter_part` applied to `finditer` of the compiled
pattern `([seps])+` (statement.py:531-548): the maximal runs of separator
characters are emitted as SEPARATOR spans and the nonempty gaps between,
before and after them as UNKNOWN spans, in order. `p` is membership in
the escaped separator character class. -/
def splitRuns (p : Char → Bool) : Str → List Part
  | [] => []
  | c :: cs => splitRunsGo p (p c) [c] cs

/-- Embedding of `Split.do` (statement.py:550-568). -/
def splitDo (p : Char → Bool) : List Part → List Part
  | [] => []
  | (s, flag) :: rest =>
    if isActivePart s flag then splitRuns p s ++ splitDo p rest
    else (s, flag) :: splitDo p rest

/-- Embedding of `Fix._test_match_pattern` (statement.py:183-189): the
compiled patterns are tried in order; the first whose `re.match` succeeds
returns true. Each pattern is embedded as its match test; note that
Python `re.match` anchors at the start of the string only, so a test may
accept a proper prefix of the span. -/
def testMatchPattern : List (Str → Bool) → Str → Bool
  | [], _ => false
  | t :: ts, s => if t s then true else testMatchPattern ts s

/-- Embedding of `Fix.do` (statement.py:191-209). -/
def fixDo (tests : List (Str → Bool)) : List Part → List Part
  | [] => []
  | (s, flag) :: rest =>
    if !(isActivePart s flag) then (s, flag) :: fixDo tests rest
    else if testMatchPattern tests s then (s, Flag.fixed) :: fixDo tests rest
    else (s, flag) :: fixDo tests rest

/-- Embedding of `Remove.do` (statement.py:456-474): identical to `Fix.do`
except matched parts become SEPARATOR. -/
def removeDo (tests : List (Str → Bool)) : List Part → List Part
  | [] => []
  | (s, flag) :: rest =>
    if !(isActivePart s flag) then (s, flag) :: removeDo tests rest
    else if testMatchPattern tests s then (s, Flag.separators) :: removeDo tests rest
    else (s, flag) :: removeDo tests rest

/-- Embedding of `FixIP.do` (statement.py:414-425); the `ipaddress`-based
`_is_ipaddr` test is abstracted as `test`. -/
def fixIPDo (test : Str → Bool) : List Part → List Part
  | [] => []
  | (s, flag) :: rest =>
    if !(isActivePart s flag) then (s, flag) :: fixIPDo test rest
    else if test s then (s, Flag.fixed) :: fixIPDo test rest
    else (s, flag) :: fixIPDo test rest

/-- Embedding of `ConditionalSplit.do` (statement.py:577-586): split an
active span only when `_test_match_pattern` accepts it. -/
def conditionalSplitDo (tests : List (Str → Bool)) (p : Char → Bool) :
    List Part → List Part
  | [] => []
  | (s, flag) :: rest =>
    if !(isActivePart s flag) then (s, flag) :: conditionalSplitDo tests p rest
    else if testMatchPattern tests s then splitRuns p s ++ conditionalSplitDo tests p rest
    else (s, flag) :: conditionalSplitDo tests p rest

/-- A Python `re` match object, restricted to what
`_separate_partial_match` reads from it: `mo.start(g)` and `mo.end(g)` for
each group name, which are `(-1, -1)` when the group did not participate
in the match. -/
abbrev MatchObj := String → Int × Int

/-- Python slice `s[a:b]` for the non-negative indices this code produces
(group spans are non-negative once `-1` has been filtered out). -/
def pySlice (s : Str) (a b : Int) : Str :=
  (s.take b.toNat).drop a.toNat

/-- Stable insertion used by `sortByStart` (Python `sorted` is stable). -/
def orderedInsertStart (mo : MatchObj) (g : String) : List String → List String
  | [] => [g]
  | h :: t =>
    if (mo g).1 ≤ (mo h).1 then g :: h :: t else h :: orderedInsertStart mo g t

/-- Embedding of `sorted(match_groups, key=lambda x: mo.start(x))`
(statement.py:145): stable sort of the group names by their match start. -/
def sortByStart (mo : MatchObj) : List String → List String
  | [] => []
  | g :: gs => orderedInsertStart mo g (sortByStart mo gs)

/-- Loop of `_ActionBase._separate_partial_match` (statement.py:141-155)
over the groups already sorted by start: `cur` is the `current` cursor;
groups with start `-1` are skipped; the text before a group becomes a
`lo`-flagged span when nonempty, the group text a `lm`-flagged span, and
the cursor jumps to the group end; text after the last group becomes a
`lo` span when the cursor is left of the end. -/
def sepGroupsGo (part : Str) (mo : MatchObj) (lm lo : Flag) :
    List String → Int → List Part
  | [], cur =>
    if cur < (part.length : Int) then [(pySlice part cur part.length, lo)] else []
  | g :: gs, cur =>
    if (mo g).1 = -1 then sepGroupsGo part mo lm lo gs cur
    else
      (if (mo g).1 > cur then [(pySlice part cur (mo g).1, lo)] else []) ++
        (pySlice part (mo g).1 (mo g).2, lm) :: sepGroupsGo part mo lm lo gs (mo g).2

/-- Embedding of `_ActionBase._separate_partial_match`
(statement.py:141-155). -/
def sepPartialMatch (part : Str) (mo : MatchObj) (matchGroups : List String)
    (labelMatch labelOther : Flag) : List Part :=
  sepGroupsGo part mo labelMatch labelOther (sortByStart mo matchGroups) 0

/-- First matching pattern of a `_PartialActionBase` (statement.py:233-240):
the compiled patterns are tried in order and the first match object wins;
the remaining patterns are ignored. -/
def firstMO : List (Str → Option MatchObj) → Str → Option MatchObj
  | [], _ => none
  | r :: rs, s =>
    match r s with
    | some mo => some mo
    | none => firstMO rs s

/-- Embedding of `_PartialActionBase.do` (statement.py:230-244),
parameterised by the `_separate_partial` method of the subclass. -/
def partialDo (regexes : List (Str → Option MatchObj))
    (sep : Str → MatchObj → List Part) : List Part → List Part
  | [] => []
  | (s, flag) :: rest =>
    if isActivePart s flag then
      match firstMO regexes s with
      | some mo => sep s mo ++ partialDo regexes sep rest
      | none => (s, flag) :: partialDo regexes sep rest
    else (s, flag) :: partialDo regexes sep rest

/-- Embedding of `FixPartial.do` (statement.py:247-318): matched named
groups become FIXED, the rest gets `restFlag` (`_FLAG_SEPARATORS` when
`rest_remove=True`, else `_FLAG_UNKNOWN`). -/
def fixPartialDo (regexes : List (Str → Option MatchObj))
    (fixGroups : List String) (restFlag : Flag) : List Part → List Part :=
  partialDo regexes (fun s mo => sepPartialMatch s mo fixGroups Flag.fixed restFlag)

/-- Embedding of `FixParenthesis.do` (statement.py:321-370): a single
synthetic group named "fix", remainder UNKNOWN. -/
def fixParenthesisDo (regexes : List (Str → Option MatchObj)) :
    List Part → List Part :=
  partialDo regexes (fun s mo => sepPartialMatch s mo ["fix"] Flag.fixed Flag.unknown)

/-- Embedding of `RemovePartial.do` (statement.py:477-506): matched groups
become SEPARATOR, remainder UNKNOWN. -/
def removePartialDo (regexes : List (Str → Option MatchObj))
    (removeGroups : List String) : List Part → List Part :=
  partialDo regexes (fun s mo => sepPartialMatch s mo removeGroups Flag.separators Flag.unknown)

/-- Concatenation of the span texts, in order: the text a part list
represents. -/
def partsText (parts : List Part) : Str :=
  (parts.map Prod.fst).flatten

/-- Fixed-offset timezone `datetime.timezone(tzdelta)`, normalised to the
total UTC offset in microseconds (two Python timezone objects compare
equal iff their offsets are equal). -/
structure Tz where
  totalMicro : Int
  deriving DecidableEq

/-- Value `datetime.timezone.utc`. -/
def utcTz : Tz := ⟨0⟩

/-- Constructor `datetime.timezone(datetime.timedelta(seconds=sec,
microseconds=us))`: the offset must be strictly between -24 hours and
+24 hours, otherwise ValueError. -/
def mkTimezone (sec us : Int) : Except Err Tz :=
  let total := sec * 1000000 + us
  if -86400000000 < total ∧ total < 86400000000 then Except.ok ⟨total⟩
  else Except.error (PyExc.valueError, [])

/-- Python values stored in a parsed-header dict: integers, strings,
`None`, `datetime.date`, `datetime.time`, `datetime.datetime`, a tzinfo
object, or the word/symbol lists added by `process_line`. -/
inductive Value where
  | int (n : Int)
  | vstr (s : Str)
  | pynone
  | date (y m d : Int)
  | time (hh mi ss us : Int) (tz : Option Tz)
  | datetime (y mo d hh mi ss us : Int) (tz : Option Tz)
  | tzv (tz : Tz)
  | strlist (ws : List Str)
  deriving DecidableEq

/-- A Python dict with string keys: an ordered association list whose keys
are unique. -/
abbrev AList := List (String × Value)

/-- Dict lookup `m[k]` as an option. -/
def kfind (m : AList) (k : String) : Option Value :=
  (m.find? (fun kv => kv.1 == k)).map (fun kv => kv.2)

/-- Membership test `k in m`. -/
def khas (m : AList) (k : String) : Bool :=
  (kfind m k).isSome

/-- Dict removal `m.pop(k)` (keys are unique, so filtering removes at most
one entry). -/
def kpop (m : AList) (k : String) : AList :=
  m.filter (fun kv => kv.1 != k)

/-- Dict update `m[k] = v`: replace in place when the key exists, else
append. -/
def kset (m : AList) (k : String) (v : Value) : AList :=
  if khas m k then m.map (fun kv => if kv.1 == k then (k, v) else kv)
  else m ++ [(k, v)]

/-- Leap-year rule used by `datetime.date`. -/
def isLeapYear (y : Int) : Bool :=
  y % 4 == 0 && (y % 100 != 0 || y % 400 == 0)

/-- Number of days of month `m` in year `y`. -/
def daysInMonth (y m : Int) : Int :=
  if m = 2 then (if isLeapYear y then 29 else 28)
  else if m = 4 ∨ m = 6 ∨ m = 9 ∨ m = 11 then 30
  else 31

/-- Constructor `datetime.date(*args)` as called at header.py:57: the
arguments must be integers (else TypeError) within the calendar ranges
(else ValueError). -/
def mkDate (y m d : Value) : Except Err Value :=
  match y, m, d with
  | Value.int y, Value.int m, Value.int d =>
    if 1 ≤ y ∧ y ≤ 9999 ∧ 1 ≤ m ∧ m ≤ 12 ∧ 1 ≤ d ∧ d ≤ daysInMonth y m
    then Except.ok (Value.date y m d)
    else Except.error (PyExc.valueError, [])
  | _, _, _ => Except.error (PyExc.typeError, [])

/-- One keyword argument of `datetime.time(**kwargs)` at header.py:66: a
key absent from the dict takes the default 0; a present value must be an
integer. -/
def timeField (ret : AList) (k : String) : Except Err Int :=
  match kfind ret k with
  | none => Except.ok 0
  | some (Value.int n) => Except.ok n
  | some _ => Except.error (PyExc.typeError, [])

/-- Keyword argument `tzinfo` of `datetime.time(**kwargs)`: absent or
`None` means a naive time; otherwise a tzinfo object is required. -/
def tzField (ret : AList) : Except Err (Option Tz) :=
  match kfind ret "tzinfo" with
  | none => Except.ok none
  | some Value.pynone => Except.ok none
  | some (Value.tzv t) => Except.ok (some t)
  | some _ => Except.error (PyExc.typeError, [])

/-- Call `datetime.time(**kwargs)` built from whichever of the
`_time_keys` are present in the dict (header.py:62-66), range-checked as
`datetime.time` does. -/
def mkTime (ret : AList) : Except Err Value := do
  let hh ← timeField ret "hour"
  let mi ← timeField ret "minute"
  let ss ← timeField ret "second"
  let us ← timeField ret "microsecond"
  let tz ← tzField ret
  if 0 ≤ hh ∧ hh ≤ 23 ∧ 0 ≤ mi ∧ mi ≤ 59 ∧ 0 ≤ ss ∧ ss ≤ 59 ∧ 0 ≤ us ∧ us ≤ 999999
  then Except.ok (Value.time hh mi ss us tz)
  else Except.error (PyExc.valueError, [])

/-- Call `datetime.datetime.combine(dateobj, timeobj)` (header.py:68):
the first argument must be a date (a datetime is accepted and contributes
its date part), the second a time; otherwise TypeError. -/
def pyCombine (dateobj timeobj : Value) : Except Err Value :=
  match dateobj, timeobj with
  | Value.date y m d, Value.time hh mi ss us tz =>
    Except.ok (Value.datetime y m d hh mi ss us tz)
  | Value.datetime y m d _ _ _ _ _, Value.time hh mi ss us tz =>
    Except.ok (Value.datetime y m d hh mi ss us tz)
  | _, _ => Except.error (PyExc.typeError, [])

/-- Message of `_missing_key` (header.py:40-44). -/
def missingKeyMsg (k : String) : Str :=
  (k ++ " is missing; use option defaults to add it manually").toList

/-- Date half of `_reformat_timestamp` (header.py:49-57): pop a
pre-combined "date" entry when present; otherwise check "year", "month"
and "day" in that order, raising `_missing_key` — a `LogParseFailure`
(header.py:40-44) — for the first key that is absent or `None`; else pop
the three keys and build a `datetime.date`. -/
def dateStep (ret : AList) : Except Err (Value × AList) :=
  if khas ret "date" then
    Except.ok ((kfind ret "date").getD Value.pynone, kpop ret "date")
  else if !(khas ret "year") || kfind ret "year" == some Value.pynone then
    Except.error (PyExc.logParseFailure, missingKeyMsg "year")
  else if !(khas ret "month") || kfind ret "month" == some Value.pynone then
    Except.error (PyExc.logParseFailure, missingKeyMsg "month")
  else if !(khas ret "day") || kfind ret "day" == some Value.pynone then
    Except.error (PyExc.logParseFailure, missingKeyMsg "day")
  else
    match mkDate ((kfind ret "year").getD Value.pynone)
        ((kfind ret "month").getD Value.pynone)
        ((kfind ret "day").getD Value.pynone) with
    | Except.error e => Except.error e
    | Except.ok d => Except.ok (d, kpop (kpop (kpop ret "year") "month") "day")

/-- Time half of `_reformat_timestamp` (header.py:59-66): pop a
pre-combined "time" entry when present, else build a `datetime.time` from
whichever `_time_keys` are present (popping them). -/
def timeStep (ret1 : AList) : Except Err (Value × AList) :=
  if khas ret1 "time" then
    Except.ok ((kfind ret1 "time").getD Value.pynone, kpop ret1 "time")
  else
    match mkTime ret1 with
    | Except.error e => Except.error e
    | Except.ok t =>
      Except.ok (t, kpop (kpop (kpop (kpop (kpop ret1 "hour") "minute") "second")
        "microsecond") "tzinfo")

/-- Embedding of `_HeaderParserBase._reformat_timestamp` (header.py:38-75)
for parsers constructed with `astimezone=None` (the default, used by every
configuration the claims quantify over; the `dt.astimezone` call at line
72 is then skipped — its naive-datetime case depends on the platform-local
timezone). Note `_missing_key` raises `LogParseFailure` (header.py:44),
the same exception class the dispatcher raises when no rule matches. -/
def reformatTimestamp (ret : AList) : Except Err AList :=
  if khas ret "timestamp" then
    -- dt = ret[KEY_TIMESTAMP]; the final ret[KEY_TIMESTAMP] = dt is a no-op
    Except.ok ret
  else
    match dateStep ret with
    | Except.error e => Except.error e
    | Except.ok (dateobj, ret1) =>
      match timeStep ret1 with
      | Except.error e => Except.error e
      | Except.ok (timeobj, ret2) =>
        match pyCombine dateobj timeobj with
        | Except.error e => Except.error e
        | Except.ok dt => Except.ok (kset ret2 "timestamp" dt)

/-- A compiled header rule, embedded as its `process_line` function
(`None` for a mismatch, a parsed dict for a match). -/
abbrev HeaderRule := Str → Option AList

/-- Preview in the dispatcher failure message (_common.py:104-107):
`line[:50]` when the line is longer than 50 characters, else the line. -/
def headerPreview (line : Str) : Str :=
  if line.length > 50 then line.take 50 else line

/-- Message of the `LogParseFailure` raised at _common.py:108-109. -/
def headerMismatchMsg (line : Str) : Str :=
  ("header format mismatch: ").toList ++ headerPreview line

/-- Embedding of `LogParser.process_header` (_common.py:79-110) with
`verbose=False`: try the rules in order, return the first non-None
result; when every rule returns None, raise `LogParseFailure` with the
bounded line preview. -/
def processHeader : List HeaderRule → Str → Except Err AList
  | [], line => Except.error (PyExc.logParseFailure, headerMismatchMsg line)
  | r :: rs, line =>
    match r line with
    | some ret => Except.ok ret
    | none => processHeader rs line

/-- Python `line.rstrip("\n")`: drop every trailing newline character. -/
def rstripNl (line : Str) : Str :=
  (line.reverse.dropWhile (fun c => c == Char.ofNat 10)).reverse

/-- Embedding of `LogParser.process_line` (_common.py:127-149): strip
trailing newlines; an empty line returns Python `None` (here
`Except.ok none`) before any rule runs; otherwise dispatch the header,
look up the leftover statement under "message" (a missing key would be a
KeyError, a non-string statement a TypeError inside the statement
parser), tokenize it and store "words" and "symbols" in the dict. -/
def logProcessLine (rules : List HeaderRule) (acts : List Action) (line : Str) :
    Except Err (Option AList) :=
  if rstripNl line = [] then
    Except.ok none
  else
    match processHeader rules (rstripNl line) with
    | Except.error e => Except.error e
    | Except.ok d =>
      match kfind d "message" with
      | none => Except.error (PyExc.keyError, "message".toList)
      | some (Value.vstr mes) =>
        match stmtProcessLine acts mes with
        | Except.error e => Except.error e
        | Except.ok (lw, ls) =>
          Except.ok (some (kset (kset d "words" (Value.strlist lw)) "symbols"
            (Value.strlist ls)))
      | some _ => Except.error (PyExc.typeError, [])

/-- Header items as `HeaderParser.__init__` inspects them: a leaf `Item`
carries its `match_name`, `value_name`, the `optional` and `dummy` flags,
and `innerGroups` — the named groups its `pattern` property itself
defines (for example `Date.pattern` at header.py:529-530 defines "year",
"month" and "day"; most items define none); an `ItemGroup`
(header.py:415-431) is a composite whose `dummy` is always true and
whose `match_name` and `value_name` are the inherited class defaults,
the string "variable" (header.py:312-313). The leaf pattern fragments
are assumed syntactically valid regexes, which holds for every library
`Item` class; a `UserItem` carrying a malformed pattern is outside this
model. -/
inductive HItem where
  | leaf (matchName valueName : String) (optional dummy : Bool)
      (innerGroups : List String)
  | group (members : List HItem) (optional : Bool)

/-- Attribute `item.optional`. -/
def itemOptional : HItem → Bool
  | .leaf _ _ opt _ _ => opt
  | .group _ opt => opt

/-- Attribute `item.dummy` (`ItemGroup.__init__` passes `dummy=True`). -/
def itemDummy : HItem → Bool
  | .leaf _ _ _ dm _ => dm
  | .group _ _ => true

/-- Attribute `item.value_name`. -/
def itemValueName : HItem → String
  | .leaf _ vn _ _ _ => vn
  | .group _ _ => "variable"

/-- Attribute `item.match_name`. -/
def itemMatchName : HItem → String
  | .leaf mn _ _ _ _ => mn
  | .group _ _ => "variable"

mutual
/-- Branch of `HeaderParser._get_items_to_pick` (header.py:179-189) for one
item: recurse into an `ItemGroup`, drop a dummy leaf, keep the rest. -/
def itemsToPickOne : HItem → List HItem
  | .group ms _ => itemsToPickList ms
  | .leaf mn vn opt dm inner => if dm then [] else [.leaf mn vn opt dm inner]

/-- Embedding of `HeaderParser._get_items_to_pick` (header.py:179-189). -/
def itemsToPickList : List HItem → List HItem
  | [] => []
  | i :: rest => itemsToPickOne i ++ itemsToPickList rest
end

mutual
/-- Named groups contributed to the assembled pattern by one item's
`get_regex()` (header.py:367-373): a non-dummy leaf wraps its pattern in
`(?P<match_name>...)`, so its match name comes first, followed by the
inner groups of the pattern itself; a dummy leaf contributes only the
inner groups; an `ItemGroup` is dummy and its pattern is its members'
`get_regex()` joined with separators (header.py:421-428), contributing
their groups. -/
def itemRegexGroups : HItem → List String
  | .leaf mn _ _ dm inner => (if dm then [] else [mn]) ++ inner
  | .group ms _ => itemRegexGroupsList ms

/-- Named groups of a list of items' `get_regex()` fragments, in order. -/
def itemRegexGroupsList : List HItem → List String
  | [] => []
  | i :: rest => itemRegexGroups i ++ itemRegexGroupsList rest
end

/-- Named groups of the assembled header pattern: the separator classes
`[...]+` and the unnamed optional wrappers `(...)?` added by the assembly
(header.py:213-267) define no named group, so the assembled pattern's
named groups are exactly those of the item fragments, in order; the same
fragments are substituted in `full_format` mode. -/
def patternGroupNames (items : List HItem) : List String :=
  itemRegexGroupsList items

/-- The `re.compile(restr)` call at header.py:173, for item patterns that
are themselves syntactically valid regexes: compilation fails exactly
when a named group is defined twice in the assembled pattern, and then
raises `re.error` ("redefinition of group name ..."). -/
def compileCheck (items : List HItem) : Except Err Unit :=
  if (patternGroupNames items).dedup.length < (patternGroupNames items).length then
    Except.error (PyExc.reError, "redefinition of group name".toList)
  else Except.ok ()

/-- Replacer check of `make_pattern_full_format` (header.py:255-267): the
items are visited in reversed index order and the first index whose
replacer `<i>` is absent raises `ParserDefinitionError` (the real message
names the replacer). The format string is abstracted as the list of
replacer indices occurring in it: library item patterns contain no
replacer text, so the one-at-a-time substitutions can neither add nor
remove replacers. -/
def fullFormatCheck (n : Nat) (replacers : List Nat) : Except Err Unit :=
  match (List.range n).reverse.find? (fun i => !(replacers.contains i)) with
  | some _ => Except.error (PyExc.parserDefinitionError,
      "Invalid full_format pattern: no replacer".toList)
  | none => Except.ok ()

/-- Pattern assembly and compilation of `HeaderParser.__init__`
(header.py:169-173): with a (truthy) `full_format`, the replacer check of
`make_pattern_full_format` runs first; `make_pattern_separator` raises
nothing once a mandatory item exists; then `re.compile` of the assembled
pattern (`compileCheck`). -/
def assembleCompile (items : List HItem) (fullFormat : Option (List Nat)) :
    Except Err Unit :=
  match fullFormat with
  | some replacers =>
    match fullFormatCheck items.length replacers with
    | Except.error e => Except.error e
    | Except.ok _ => compileCheck items
  | none => compileCheck items

/-- Embedding of `HeaderParser.__init__` (header.py:160-173):
`_optional_check` (header.py:191-196), `_statement_check`
(header.py:198-203) over the top-level value names, `_duplication_check`
(header.py:205-211) over the match names of the flattened non-dummy
items, in source order; then the pattern assembly and `re.compile`
(`assembleCompile`). -/
def headerParserInit (items : List HItem) (fullFormat : Option (List Nat)) :
    Except Err Unit :=
  if (items.filter (fun i => itemOptional i == false)).length = 0 then
    Except.error (PyExc.parserDefinitionError,
      "more than one Item (usually Statement) need to be non-optional".toList)
  else if !((items.map itemValueName).contains "message") then
    Except.error (PyExc.parserDefinitionError,
      "one Statement Item is mandatory in header rules".toList)
  else if ((itemsToPickList items).map itemMatchName).dedup.length
      < ((itemsToPickList items).map itemMatchName).length then
    Except.error (PyExc.parserDefinitionError,
      "Given items include duplicated match names".toList)
  else assembleCompile items fullFormat

/-- Python `string.lower()` for the characters these decoders see. -/
def pyLower (s : Str) : Str :=
  s.map Char.toLower

/-- Python `int(string)` for the sliced digit strings this code produces:
base 10, no sign; an empty or non-digit string raises ValueError. -/
def pyInt (s : Str) : Except Err Int :=
  if s ≠ [] ∧ s.all Char.isDigit then
    Except.ok ((s.foldl (fun acc c => acc * 10 + (c.toNat - 48)) 0 : Nat) : Int)
  else Except.error (PyExc.valueError, [])

/-- Python subscript `s[i]`: IndexError when out of range. -/
def pyIndex (s : Str) (i : Nat) : Except Err Char :=
  match s[i]? with
  | some c => Except.ok c
  | none => Except.error (PyExc.indexError, [])

/-- Python slice `s[a:b]` with natural bounds. -/
def pySliceN (s : Str) (a b : Nat) : Str :=
  (s.take b).drop a

/-- Embedding of the compiled `TimestampParser.numeric_tz` regex
`^[+-]\d{2}:\d{2}(:\d+)?$` (parse.py:30) as a whole-string test. -/
def numericTzMatch (z : Str) : Bool :=
  match z with
  | sign :: d1 :: d2 :: c1 :: d3 :: d4 :: rest =>
    (sign == '+' || sign == '-') && d1.isDigit && d2.isDigit && c1 == ':' &&
      d3.isDigit && d4.isDigit &&
      (match rest with
       | [] => true
       | c2 :: ds => c2 == ':' && !ds.isEmpty && ds.all Char.isDigit)
  | _ => false

/-- Embedding of `TimestampParser._str2tz` (parse.py:44-73). In the
numeric-offset branch the string surgery of lines 49-54 cannot raise once
`numeric_tz` has matched (after the first colon is removed, either the
string has length 5 or its sixth character is the second colon), so
control always reaches line 65, which evaluates the undefined name
`datetime_timedelta` — in Python a NameError. Otherwise: lowercased "utc"
and "gmt" map to `datetime.timezone.utc`; anything else returns `None`,
meaning use local time. -/
def str2tz (s : Str) : Except Err (Option Tz) :=
  let z := pyLower s
  if numericTzMatch z then
    Except.error (PyExc.nameError, [])
  else if z = "utc".toList ∨ z = "gmt".toList then
    Except.ok (some utcTz)
  else
    Except.ok none

/-- Embedding of `Time.parse_tz` (header.py:594-619) (the identical
`TimeZone.parse_tz` at header.py:659-681 lacks only the initial "Z" test):
note the subscript `z[3]` raises IndexError on 3-character inputs such as
"utc" or "gmt". -/
def parseTz (s : Str) : Except Err Tz := do
  if s = "Z".toList then
    Except.ok utcTz
  else do
    let z0 := pyLower s
    let c3 ← pyIndex z0 3
    let z ←
      if c3 = ':' then do
        let z1 := z0.take 3 ++ z0.drop 4
        if z1.length > 5 then do
          let c5 ← pyIndex z1 5
          if c5 ≠ ':' then Except.error (PyExc.valueError, [])
          else pure (z1.take 5 ++ z1.drop 6)
        else pure z1
      else pure z0
    let hours ← pyInt (pySliceN z 1 3)
    let minutes ← pyInt (pySliceN z 3 5)
    let seconds ← if pySliceN z 5 7 = [] then pure 0 else pyInt (pySliceN z 5 7)
    let gmtoff := hours * 3600 + minutes * 60 + seconds
    let rem := z.drop 8
    let fraction ← pyInt (rem ++ List.replicate (6 - rem.length) '0')
    let (gmtoff, fraction) :=
      if z.head? = some '-' then (-gmtoff, -fraction) else (gmtoff, fraction)
    mkTimezone gmtoff fraction

/-- Exception class of a computation that raised, `none` when it
returned. -/
def errClass {α : Type _} (r : Except Err α) : Option PyExc :=
  match r with
  | .error (k, _) => some k
  | .ok _ => none

/-- Pass-through skeleton shared by every action `do` method: each span
tagged UNKNOWN is handed to `core`, every other span is reproduced as is,
in place. -/
def onlyUnresolved (core : Part → List Part) (parts : List Part) : List Part :=
  (parts.map (fun x => if x.2 = Flag.unknown then core x else [x])).flatten

/-- Behaviour of `Split.do` on a single span. -/
def splitCore (p : Char → Bool) (x : Part) : List Part :=
  if isActivePart x.1 x.2 then splitRuns p x.1 else [x]

/-- Behaviour of `Fix.do` on a single span. -/
def fixCore (tests : List (Str → Bool)) (x : Part) : List Part :=
  if !(isActivePart x.1 x.2) then [x]
  else if testMatchPattern tests x.1 then [(x.1, Flag.fixed)]
  else [x]

/-- Behaviour of `Remove.do` on a single span. -/
def removeCore (tests : List (Str → Bool)) (x : Part) : List Part :=
  if !(isActivePart x.1 x.2) then [x]
  else if testMatchPattern tests x.1 then [(x.1, Flag.separators)]
  else [x]

/-- Behaviour of `FixIP.do` on a single span. -/
def fixIPCore (test : Str → Bool) (x : Part) : List Part :=
  if !(isActivePart x.1 x.2) then [x]
  else if test x.1 then [(x.1, Flag.fixed)]
  else [x]

/-- Behaviour of `ConditionalSplit.do` on a single span. -/
def condSplitCore (tests : List (Str → Bool)) (p : Char → Bool) (x : Part) :
    List Part :=
  if !(isActivePart x.1 x.2) then [x]
  else if testMatchPattern tests x.1 then splitRuns p x.1
  else [x]

/-- Behaviour of `_PartialActionBase.do` on a single span. -/
def partialCore (regexes : List (Str → Option MatchObj))
    (sep : Str → MatchObj → List Part) (x : Part) : List Part :=
  if isActivePart x.1 x.2 then
    match firstMO regexes x.1 with
    | some mo => sep x.1 mo
    | none => [x]
  else [x]

/-- Match object of `re.compile(r'^ (?P<a>x?)c$').match(" c")`: the match
spans the whole string and the named group "a" participates with the
empty span (1, 1), since `x?` matches the empty string before "c". -/
def c1mo : MatchObj :=
  fun g => if g = "a" then (1, 1) else (-1, -1)

/-- Embedding of `re.compile(r'^ (?P<a>x?)c$').match` on the spans arising
in the C1 pipeline: exactly the seed span " c" matches, with `c1mo`. -/
def c1regex : Str → Option MatchObj :=
  fun s => if s = " c".toList then some c1mo else none

/-- The action `FixPartial(r'^ (?P<a>x?)c$', fix_groups=["a"],
rest_remove=True)`. -/
def c1action : Action :=
  fixPartialDo [c1regex] ["a"] Flag.separators

/-- Match object of `re.compile(r'^(?P<a>ab(?P<b>c)d)$').match("abcd")`:
group "a" spans (0, 4) and the nested group "b" spans (2, 3). -/
def c2mo : MatchObj :=
  fun g => if g = "a" then (0, 4) else if g = "b" then (2, 3) else (-1, -1)

/-- Embedding of `re.compile(r'^(?P<a>ab(?P<b>c)d)$').match` on the spans
arising in the C2 run: exactly "abcd" matches, with `c2mo`. -/
def c2regex : Str → Option MatchObj :=
  fun s => if s = "abcd".toList then some c2mo else none

/-- The action `FixPartial(r'^(?P<a>ab(?P<b>c)d)$', fix_groups=["a", "b"])`
(default `rest_remove=False`). -/
def c2action : Action :=
  fixPartialDo [c2regex] ["a", "b"] Flag.unknown

/-- A parsed-header dict holding only the leftover statement: no
"timestamp", "date", "year", "month" or "day" entry. -/
def c3ret : AList := [("message", Value.vstr "x".toList)]

/-- A header rule that never matches. -/
def noneRule : HeaderRule := fun _ => none

/-- A header rule that matches every line with result `{"k": 1}`. -/
def c4rule1 : HeaderRule := fun _ => some [("k", Value.int 1)]

/-- A header rule that matches every line with result `{"k": 2}`. -/
def c4rule2 : HeaderRule := fun _ => some [("k", Value.int 2)]

/-- Truthiness of `re.compile(lit).match(s)` for a literal pattern `lit`:
Python `re.match` anchors at the start of the string only, so it succeeds
whenever `lit` is a prefix of `s`. -/
def pyMatchLit (lit : Str) (s : Str) : Bool :=
  lit.isPrefixOf s

/-- Whole-span match of a literal pattern (`re.fullmatch` semantics): the
entire span text must match, which is what the claim asserts `Fix` tests. -/
def wholeSpanMatchLit (lit : Str) (s : Str) : Bool :=
  s == lit

/-- Item `Statement()` (header.py:434-443): match name and value name are
both "message", mandatory, not dummy; its pattern `.*` defines no inner
group. -/
def stmtItem : HItem := .leaf "message" "message" false false []

/-- Item `Statement(dummy=True)`: a second statement field marked dummy. -/
def stmtItemDummy : HItem := .leaf "message" "message" false true []

/-- Item `Date()` (header.py:518-545): match name "date", value name
"date"; its pattern defines the inner groups "year", "month" and "day"
(header.py:529-530). -/
def dateItem : HItem :=
  .leaf "date" "date" false false ["year", "month", "day"]

/-- Item `DatetimeISOFormat()` (header.py:483-515): match name
"iso_datetime", value name "timestamp"; its pattern defines the inner
groups "year", "month", "day", "hour", "minute", "second", "dsecond" and
"tz" (header.py:497-501). -/
def datetimeISOItem : HItem :=
  .leaf "iso_datetime" "timestamp" false false
    ["year", "month", "day", "hour", "minute", "second", "dsecond", "tz"]

/-- Fuelled floor of log2; the fuel 128 covers every magnitude used
here. -/
def floorLog2Aux : Nat → Nat → Nat
  | 0, _ => 0
  | fuel + 1, n => if n ≤ 1 then 0 else floorLog2Aux fuel (n / 2) + 1

/-- Floor of log2 of a positive natural. -/
def floorLog2 (n : Nat) : Nat :=
  floorLog2Aux 128 n

/-- Test `2 ^ e ≤ a / b` by cross multiplication. -/
def pow2LeFrac (e : Int) (a b : Nat) : Bool :=
  if 0 ≤ e then b * 2 ^ e.toNat ≤ a else b ≤ a * 2 ^ (-e).toNat

/-- Floor of `log2 (a / b)` for positive `a`, `b`: it equals
`floorLog2 a - floorLog2 b`, corrected down by one when that power of two
exceeds the fraction. -/
def fracLog2 (a b : Nat) : Int :=
  let e1 : Int := (floorLog2 a : Int) - (floorLog2 b : Int)
  if pow2LeFrac e1 a b then e1 else e1 - 1

/-- Round `a / b` to the nearest integer, ties to even. -/
def natRoundHalfEven (a b : Nat) : Nat :=
  let q := a / b
  let r := a % b
  if 2 * r < b then q
  else if b < 2 * r then q + 1
  else if q % 2 = 0 then q
  else q + 1

/-- A non-negative IEEE-754 binary64 value (a CPython float), as
`sig * 2 ^ (exp - 52)` with `2 ^ 52 ≤ sig ≤ 2 ^ 53` when normal (or 0).
The magnitudes used here are far from the overflow and subnormal
ranges. -/
structure DoubleVal where
  sig : Nat
  exp : Int
  deriving DecidableEq

/-- Correctly rounded (nearest, ties to even) binary64 of the exact
fraction `a / b`: the result of the CPython true division `a / b` of
non-negative ints, and of any IEEE operation whose exact result is
`a / b`. -/
def flOfFrac (a b : Nat) : DoubleVal :=
  if a = 0 then ⟨0, 0⟩
  else
    let e := fracLog2 a b
    let sig :=
      if 0 ≤ (52 : Int) - e then natRoundHalfEven (a * 2 ^ (((52 : Int) - e).toNat)) b
      else natRoundHalfEven a (b * 2 ^ ((e - 52).toNat))
    ⟨sig, e⟩

/-- Exact value of a `DoubleVal` as a fraction. -/
def doubleFrac (x : DoubleVal) : Nat × Nat :=
  if 0 ≤ x.exp - 52 then (x.sig * 2 ^ ((x.exp - 52).toNat), 1)
  else (x.sig, 2 ^ ((52 - x.exp).toNat))

/-- CPython `x * k` for a float `x` and an exactly representable
non-negative int `k`: the IEEE product is the correctly rounded exact
product. -/
def pyMulInt (x : DoubleVal) (k : Nat) : DoubleVal :=
  flOfFrac ((doubleFrac x).1 * k) (doubleFrac x).2

/-- Python `int(x)` for a non-negative float: truncation toward zero. -/
def pyTruncDouble (x : DoubleVal) : Nat :=
  (doubleFrac x).1 / (doubleFrac x).2

/-- Embedding of the microsecond computation shared by
`Time.parse_timestr` (header.py:578-583) and `DemicalSecond.pick_value`
(header.py:636-641): `int(decimal / (10 ** size) * 10 ** 6)` evaluated in
CPython float (IEEE-754 binary64) arithmetic — one correctly rounded
division, one correctly rounded multiplication by the exactly converted
10^6, then truncation toward zero. -/
def pickMicrosecond (decimal size : Nat) : Nat :=
  pyTruncDouble (pyMulInt (flOfFrac decimal (10 ^ size)) (10 ^ 6))

theorem isActivePart_of_ne_unknown (s : Str) (flag : Flag)
    (h : flag ≠ Flag.unknown) : isActivePart s flag = false := by
  cases flag <;> simp_all [isActivePart]

theorem do_eq_onlyUnresolved (step : Part → List Part)
    (go : List Part → List Part)
    (hnil : go [] = [])
    (hcons : ∀ s flag rest, go ((s, flag) :: rest) = step (s, flag) ++ go rest)
    (hpass : ∀ s flag, flag ≠ Flag.unknown → step (s, flag) = [(s, flag)]) :
    ∀ parts, go parts = onlyUnresolved step parts
  | [] => by simp [hnil, onlyUnresolved]
  | (s, flag) :: rest => by
    rw [hcons, do_eq_onlyUnresolved step go hnil hcons hpass rest]
    by_cases h : flag = Flag.unknown
    · subst h; simp [onlyUnresolved]
    · simp [onlyUnresolved, h, hpass s flag h]

theorem splitDo_eq (p : Char → Bool) (parts : List Part) :
    splitDo p parts = onlyUnresolved (splitCore p) parts :=
  do_eq_onlyUnresolved _ _ rfl
    (fun s flag rest => by
      by_cases h : isActivePart s flag <;> simp [splitDo, splitCore, h])
    (fun s flag h => by simp [splitCore, isActivePart_of_ne_unknown s flag h])
    parts

theorem fixDo_eq (tests : List (Str → Bool)) (parts : List Part) :
    fixDo tests parts = onlyUnresolved (fixCore tests) parts :=
  do_eq_onlyUnresolved _ _ rfl
    (fun s flag rest => by
      by_cases h : isActivePart s flag <;>
        by_cases h2 : testMatchPattern tests s <;> simp [fixDo, fixCore, h, h2])
    (fun s flag h => by simp [fixCore, isActivePart_of_ne_unknown s flag h])
    parts

theorem removeDo_eq (tests : List (Str → Bool)) (parts : List Part) :
    removeDo tests parts = onlyUnresolved (removeCore tests) parts :=
  do_eq_onlyUnresolved _ _ rfl
    (fun s flag rest => by
      by_cases h : isActivePart s flag <;>
        by_cases h2 : testMatchPattern tests s <;> simp [removeDo, removeCore, h, h2])
    (fun s flag h => by simp [removeCore, isActivePart_of_ne_unknown s flag h])
    parts

theorem fixIPDo_eq (test : Str → Bool) (parts : List Part) :
    fixIPDo test parts = onlyUnresolved (fixIPCore test) parts :=
  do_eq_onlyUnresolved _ _ rfl
    (fun s flag rest => by
      by_cases h : isActivePart s flag <;>
        by_cases h2 : test s <;> simp [fixIPDo, fixIPCore, h, h2])
    (fun s flag h => by simp [fixIPCore, isActivePart_of_ne_unknown s flag h])
    parts

theorem conditionalSplitDo_eq (tests : List (Str → Bool)) (p : Char → Bool)
    (parts : List Part) :
    conditionalSplitDo tests p parts = onlyUnresolved (condSplitCore tests p) parts :=
  do_eq_onlyUnresolved _ _ rfl
    (fun s flag rest => by
      by_cases h : isActivePart s flag <;>
        by_cases h2 : testMatchPattern tests s <;>
          simp [conditionalSplitDo, condSplitCore, h, h2])
    (fun s flag h => by simp [condSplitCore, isActivePart_of_ne_unknown s flag h])
    parts

theorem partialDo_eq (regexes : List (Str → Option MatchObj))
    (sep : Str → MatchObj → List Part) (parts : List Part) :
    partialDo regexes sep parts = onlyUnresolved (partialCore regexes sep) parts :=
  do_eq_onlyUnresolved _ _ rfl
    (fun s flag rest => by
      by_cases h : isActivePart s flag
      · cases hm : firstMO regexes s <;> simp [partialDo, partialCore, h, hm]
      · simp [partialDo, partialCore, h])
    (fun s flag h => by simp [partialCore, isActivePart_of_ne_unknown s flag h])
    parts

/-- C5: for every segmentation action (Split, Fix, FixPartial,
FixParenthesis, FixIP, Remove, RemovePartial, ConditionalSplit) and every
input span sequence, the output is obtained by mapping each span to a
sub-list where every span not tagged Unresolved maps to exactly itself
(same text, same tag, kept in place — see `onlyUnresolved`); hence Fixed
and Separator spans pass through unchanged in their relative order, and
only Unresolved spans may be re-tagged or subdivided. -/
theorem log2seq_C5_passthrough :
    (∀ (p : Char → Bool) (parts : List Part),
      splitDo p parts = onlyUnresolved (splitCore p) parts) ∧
    (∀ (tests : List (Str → Bool)) (parts : List Part),
      fixDo tests parts = onlyUnresolved (fixCore tests) parts) ∧
    (∀ (regexes : List (Str → Option MatchObj)) (fixGroups : List String)
      (restFlag : Flag) (parts : List Part),
      fixPartialDo regexes fixGroups restFlag parts
        = onlyUnresolved (partialCore regexes
            (fun s mo => sepPartialMatch s mo fixGroups Flag.fixed restFlag)) parts) ∧
    (∀ (regexes : List (Str → Option MatchObj)) (parts : List Part),
      fixParenthesisDo regexes parts
        = onlyUnresolved (partialCore regexes
            (fun s mo => sepPartialMatch s mo ["fix"] Flag.fixed Flag.unknown)) parts) ∧
    (∀ (test : Str → Bool) (parts : List Part),
      fixIPDo test parts = onlyUnresolved (fixIPCore test) parts) ∧
    (∀ (tests : List (Str → Bool)) (parts : List Part),
      removeDo tests parts = onlyUnresolved (removeCore tests) parts) ∧
    (∀ (regexes : List (Str → Option MatchObj)) (removeGroups : List String)
      (parts : List Part),
      removePartialDo regexes removeGroups parts
        = onlyUnresolved (partialCore regexes
            (fun s mo => sepPartialMatch s mo removeGroups Flag.separators Flag.unknown)) parts) ∧
    (∀ (tests : List (Str → Bool)) (p : Char → Bool) (parts : List Part),
      conditionalSplitDo tests p parts
        = onlyUnresolved (condSplitCore tests p) parts) :=
  ⟨splitDo_eq, fixDo_eq,
    fun regexes _ _ parts => partialDo_eq regexes _ parts,
    fun regexes parts => partialDo_eq regexes _ parts,
    fixIPDo_eq, removeDo_eq,
    fun regexes _ parts => partialDo_eq regexes _ parts,
    conditionalSplitDo_eq⟩

/-- C1 fails on the code: the pipeline consisting of the single action
`FixPartial(r'^ (?P<a>x?)c$', fix_groups=["a"], rest_remove=True)` applied
to the statement " c" yields the spans [(" ", SEPARATOR), ("", FIXED),
("c", SEPARATOR)]; `_separate` then computes words = [] and
symbols = [" ", "c"], so its own `assert len(l_s) == len(l_w) + 1` fails
(2 ≠ 0 + 1) and `process_line` raises AssertionError instead of returning
a pair satisfying the parallel-array invariant. -/
theorem log2seq_C1_assert_violation :
    c1action [(" ".toList ++ "c".toList, Flag.unknown)]
      = [(" ".toList, Flag.separators), ([], Flag.fixed), ("c".toList, Flag.separators)] ∧
    separateGo (c1action [(" c".toList, Flag.unknown)]) [] [] true
      = ([], [" ".toList, "c".toList]) ∧
    stmtProcessLine [c1action] " c".toList
      = Except.error (PyExc.assertionError, []) := by
  decide

/-- C2 fails on the code: the action
`FixPartial(r'^(?P<a>ab(?P<b>c)d)$', fix_groups=["a", "b"])` contains the
nested group "b" inside "a"; on the single span "abcd" the cursor logic of
`_separate_partial_match` emits the text of "b" a second time, producing
spans whose concatenation is "abcdcd" — not the original statement "abcd",
so losslessness is violated after this action. -/
theorem log2seq_C2_losslessness_violation :
    c2action [("abcd".toList, Flag.unknown)]
      = [("abcd".toList, Flag.fixed), ("c".toList, Flag.fixed), ("d".toList, Flag.unknown)] ∧
    partsText [("abcd".toList, Flag.unknown)] = "abcd".toList ∧
    partsText (c2action [("abcd".toList, Flag.unknown)]) = "abcdcd".toList ∧
    "abcdcd".toList ≠ "abcd".toList := by
  decide

/-- C3 fails on the code: log2seq defines no `MissingFieldError` — the
error raised by `_reformat_timestamp._missing_key` when a full date cannot
be assembled (here: a header dict with no timestamp, date or year entry)
is a `LogParseFailure` (header.py:44), the very same exception class the
dispatcher raises when no header rule matches a line (_common.py:109), so
the two failures are not distinguishable by exception type. -/
theorem log2seq_C3_counterexample :
    errClass (reformatTimestamp c3ret) = some PyExc.logParseFailure ∧
    errClass (processHeader [] "x".toList) = some PyExc.logParseFailure ∧
    errClass (reformatTimestamp c3ret) = errClass (processHeader [] "x".toList) := by
  decide

/-- C3 amended: whenever timestamp assembly is underspecified (no
"timestamp", no "date" and a missing-or-None "year" after merging over
defaults), `_reformat_timestamp` raises `LogParseFailure` with the
"year is missing" message, and whenever no header rule matches a line the
dispatcher raises `LogParseFailure` with the "header format mismatch"
preview message: both failures share the exception class
`LogParseFailure` and are distinguishable only by message; only
`ParserDefinitionError` is a distinct class. -/
theorem log2seq_C3_amended (ret : AList) (rules : List HeaderRule) (line : Str)
    (h1 : khas ret "timestamp" = false) (h2 : khas ret "date" = false)
    (h3 : khas ret "year" = false ∨ kfind ret "year" = some Value.pynone)
    (h4 : ∀ r ∈ rules, r line = none) :
    reformatTimestamp ret
      = Except.error (PyExc.logParseFailure, missingKeyMsg "year") ∧
    processHeader rules line
      = Except.error (PyExc.logParseFailure, headerMismatchMsg line) ∧
    PyExc.logParseFailure ≠ PyExc.parserDefinitionError := by
  refine ⟨?_, ?_, by decide⟩
  · have hy : (!(khas ret "year") || kfind ret "year" == some Value.pynone) = true := by
      rcases h3 with h | h <;> simp [h]
    simp [reformatTimestamp, dateStep, h1, h2, hy]
  · induction rules with
    | nil => simp [processHeader]
    | cons r rs ih =>
      have hr : r line = none := h4 r (List.mem_cons_self r rs)
      simp only [processHeader, hr]
      exact ih (fun q hq => h4 q (List.mem_cons_of_mem _ hq))

/-- Witness for C3 amended at a concrete configuration: the dict
`{"message": "x"}` and the single never-matching rule on line "x". -/
theorem log2seq_C3_amended_witness :
    reformatTimestamp c3ret
      = Except.error (PyExc.logParseFailure, missingKeyMsg "year") ∧
    processHeader [noneRule] "x".toList
      = Except.error (PyExc.logParseFailure, headerMismatchMsg "x".toList) ∧
    PyExc.logParseFailure ≠ PyExc.parserDefinitionError :=
  log2seq_C3_amended c3ret [noneRule] "x".toList (by decide) (by decide)
    (Or.inl (by decide))
    (fun r hr => by
      rw [List.mem_singleton.mp hr]; rfl)

/-- C4: the dispatcher returns the result of the first rule (in list
order) that returns a non-None extraction — stated as an equation against
`List.findSome?` — and when every rule returns None it raises
`LogParseFailure` carrying the line preview `line[:50]`, whose length
never exceeds 50 characters. In particular, for a dispatcher list
`[r1, r2]`, a line matching r1 yields exactly the extraction of r1. -/
theorem log2seq_C4_dispatcher (rules : List HeaderRule) (line : Str) :
    processHeader rules line
      = (match rules.findSome? (fun r => r line) with
         | some d => Except.ok d
         | none => Except.error (PyExc.logParseFailure, headerMismatchMsg line)) ∧
    (headerPreview line).length ≤ 50 ∧
    (∀ (r1 r2 : HeaderRule) (d1 : AList),
      r1 line = some d1 → processHeader [r1, r2] line = Except.ok d1) := by
  refine ⟨?_, ?_, ?_⟩
  · induction rules with
    | nil => simp [processHeader]
    | cons r rs ih =>
      cases hr : r line <;> simp [processHeader, List.findSome?_cons, hr, ih]
  · by_cases h : line.length > 50
    · simp only [headerPreview, h, if_pos, List.length_take]
      omega
    · simp only [headerPreview, h, if_neg, if_false]
      omega
  · intro r1 r2 d1 h1
    simp [processHeader, h1]

/-- Witness for C4 at a concrete configuration: both rules match line "x",
and the dispatcher answers with the extraction of the first. -/
theorem log2seq_C4_dispatcher_witness :
    processHeader [c4rule1, c4rule2] "x".toList
      = Except.ok [("k", Value.int 1)] :=
  (log2seq_C4_dispatcher [c4rule1, c4rule2] "x".toList).2.2 c4rule1 c4rule2
    [("k", Value.int 1)] rfl

theorem testMatchPattern_eq_any (tests : List (Str → Bool)) (s : Str) :
    testMatchPattern tests s = tests.any (fun t => t s) := by
  induction tests with
  | nil => rfl
  | cons t ts ih => by_cases h : t s <;> simp [testMatchPattern, h, ih]

/-- C6 fails on the code: `Fix._test_match_pattern` uses Python
`re.match`, which anchors at the start of the string only — a prefix
match, not a whole-span match. With the single pattern "a", the
Unresolved span "abc" does not match the pattern as a whole span
("abc" is not "a", so `re.fullmatch` would fail) and by the claim it must
be left unchanged; the code nevertheless re-tags the entire span Fixed,
because "a" matches a prefix of "abc". -/
theorem log2seq_C6_counterexample :
    fixDo [pyMatchLit "a".toList] [("abc".toList, Flag.unknown)]
      = [("abc".toList, Flag.fixed)] ∧
    wholeSpanMatchLit "a".toList "abc".toList = false := by
  decide

/-- C6 amended: for every Unresolved span handled by `Fix(patterns)` the
patterns are tested in order with Python `re.match` semantics — the
pattern must match at the start of the span, not necessarily up to its
end; a first success re-tags the entire span Fixed as one piece (no
subdivision) and ends the test; a span accepted by no pattern passes
unchanged. Stated as: `Fix.do` is the pass-through map of `fixCore`
(whole-span retag on `_test_match_pattern`), the test is the ordered
first-match over the pattern list (equivalently, a Boolean any), and on
the concrete prefix example the whole span "ab" is fixed by the literal
pattern "a". -/
theorem log2seq_C6_amended :
    (∀ (tests : List (Str → Bool)) (parts : List Part),
      fixDo tests parts = onlyUnresolved (fixCore tests) parts) ∧
    (∀ (tests : List (Str → Bool)) (s : Str),
      testMatchPattern tests s = tests.any (fun t => t s)) ∧
    fixDo [pyMatchLit "a".toList] [("ab".toList, Flag.unknown)]
      = [("ab".toList, Flag.fixed)] :=
  ⟨fixDo_eq, testMatchPattern_eq_any, by decide⟩

theorem contains_eq_false_iff {α : Type _} [BEq α] [LawfulBEq α]
    (l : List α) (a : α) :
    (l.contains a = false) ↔ a ∉ l := by
  constructor
  · intro h hm
    have hc : l.contains a = true := List.elem_iff.mpr hm
    rw [h] at hc
    exact Bool.false_ne_true hc
  · intro h
    cases hc : l.contains a
    · rfl
    · exact absurd (List.elem_iff.mp hc) h

theorem dedup_length_lt_iff (l : List String) :
    l.dedup.length < l.length ↔ ¬ l.Nodup := by
  constructor
  · intro h hn
    rw [List.dedup_eq_self.mpr hn] at h
    exact lt_irrefl _ h
  · intro hn
    rcases lt_or_eq_of_le (List.Sublist.length_le (List.dedup_sublist l)) with h | h
    · exact h
    · exact absurd ((List.Sublist.eq_of_length (List.dedup_sublist l) h) ▸
        List.nodup_dedup l) hn

/-- C7 fails on the code in both directions. An item list with two
statement fields — a mandatory `Statement()` plus a `Statement(dummy=True)`
— passes every check of `HeaderParser.__init__` and constructs without
error, because `_statement_check` only requires the statement value name
to be present (header.py:198-203) and the dummy duplicate is excluded
from `_duplication_check` (header.py:179-189, 205-211). Conversely,
`[Statement(), Date(), DatetimeISOFormat()]` has pairwise distinct
capture names ("message", "date", "iso_datetime"), one statement field
and three mandatory fields — by the claim it must construct without error
— yet `re.compile` at header.py:173 raises `re.error`, because both
`Date.pattern` and `DatetimeISOFormat.pattern` define the inner group
"year" (and "month", "day"). -/
theorem log2seq_C7_counterexample :
    headerParserInit [stmtItem, stmtItemDummy] none = Except.ok () ∧
    ([stmtItem, stmtItemDummy].filter
      (fun i => itemValueName i == "message")).length = 2 ∧
    headerParserInit [stmtItem, dateItem, datetimeISOItem] none
      = Except.error (PyExc.reError, "redefinition of group name".toList) ∧
    ((itemsToPickList [stmtItem, dateItem, datetimeISOItem]).map
      itemMatchName).Nodup := by
  decide

/-- C7 amended: `HeaderParser` construction raises `ParserDefinitionError`
exactly when the top-level item list has no item carrying the statement
value name, or has zero mandatory (non-optional) items, or two non-dummy
items (flattened through groups) share a capture (match) name, or a
`full_format` was given that lacks the replacer of some item index.
Otherwise construction can still fail, with `re.error` rather than
`ParserDefinitionError`: exactly when the assembled pattern defines some
named group twice — counting the inner groups of the item patterns (such
as "year" in both `Date` and `DatetimeISOFormat`) together with the
capture names; an item list passing all of these constructs without
error, and no line is ever processed by a rule whose construction raised.
In particular "more than one statement field" alone is not rejected: a
dummy second statement passes; two non-dummy statement fields are
rejected, but as a duplicated "message" capture name. -/
theorem log2seq_C7_amended (items : List HItem) (fullFormat : Option (List Nat)) :
    ((∃ msg, headerParserInit items fullFormat
        = Except.error (PyExc.parserDefinitionError, msg)) ↔
      ((∀ i ∈ items, itemOptional i = true) ∨
       (∀ i ∈ items, itemValueName i ≠ "message") ∨
       ¬ ((itemsToPickList items).map itemMatchName).Nodup ∨
       (∃ fmt, fullFormat = some fmt ∧ ∃ i, i < items.length ∧ i ∉ fmt))) ∧
    ((∃ msg, headerParserInit items fullFormat
        = Except.error (PyExc.reError, msg)) ↔
      (¬ (∀ i ∈ items, itemOptional i = true) ∧
       ¬ (∀ i ∈ items, itemValueName i ≠ "message") ∧
       ((itemsToPickList items).map itemMatchName).Nodup ∧
       ¬ (∃ fmt, fullFormat = some fmt ∧ ∃ i, i < items.length ∧ i ∉ fmt) ∧
       ¬ (patternGroupNames items).Nodup)) ∧
    (headerParserInit items fullFormat = Except.ok () ↔
      (¬ (∀ i ∈ items, itemOptional i = true) ∧
       ¬ (∀ i ∈ items, itemValueName i ≠ "message") ∧
       ((itemsToPickList items).map itemMatchName).Nodup ∧
       ¬ (∃ fmt, fullFormat = some fmt ∧ ∃ i, i < items.length ∧ i ∉ fmt) ∧
       (patternGroupNames items).Nodup)) := by
  have hc1 : ((items.filter (fun i => itemOptional i == false)).length = 0) ↔
      (∀ i ∈ items, itemOptional i = true) := by
    rw [List.length_eq_zero, List.filter_eq_nil_iff]
    constructor
    · intro h i hi
      have := h i hi
      simpa using this
    · intro h i hi
      simp [h i hi]
  have hc2 : (((items.map itemValueName).contains "message") = false) ↔
      (∀ i ∈ items, itemValueName i ≠ "message") := by
    rw [contains_eq_false_iff]
    constructor
    · intro h i hi hv
      exact h (List.mem_map.mpr ⟨i, hi, hv⟩)
    · rintro h hm
      obtain ⟨i, hi, hv⟩ := List.mem_map.mp hm
      exact h i hi hv
  have hc3 : (((itemsToPickList items).map itemMatchName).dedup.length
      < ((itemsToPickList items).map itemMatchName).length) ↔
      ¬ ((itemsToPickList items).map itemMatchName).Nodup :=
    dedup_length_lt_iff ((itemsToPickList items).map itemMatchName)
  by_cases h1 : (items.filter (fun i => itemOptional i == false)).length = 0
  · have he : headerParserInit items fullFormat = Except.error (PyExc.parserDefinitionError,
        "more than one Item (usually Statement) need to be non-optional".toList) := by
      unfold headerParserInit
      rw [if_pos h1]
    refine ⟨⟨fun _ => Or.inl (hc1.mp h1), fun _ => ⟨_, he⟩⟩, ?_, ?_⟩
    · constructor
      · rintro ⟨msg, hmsg⟩
        rw [he] at hmsg
        exact absurd hmsg (by simp)
      · rintro ⟨hnA, _, _, _, _⟩
        exact absurd (hc1.mp h1) hnA
    · constructor
      · intro hok
        rw [he] at hok
        exact absurd hok (by simp)
      · rintro ⟨hnA, _, _, _, _⟩
        exact absurd (hc1.mp h1) hnA
  · by_cases h2 : ((items.map itemValueName).contains "message") = false
    · have h2b : (!((items.map itemValueName).contains "message")) = true := by
        rw [h2]
        rfl
      have he : headerParserInit items fullFormat = Except.error (PyExc.parserDefinitionError,
          "one Statement Item is mandatory in header rules".toList) := by
        unfold headerParserInit
        rw [if_neg h1, if_pos h2b]
      refine ⟨⟨fun _ => Or.inr (Or.inl (hc2.mp h2)), fun _ => ⟨_, he⟩⟩, ?_, ?_⟩
      · constructor
        · rintro ⟨msg, hmsg⟩
          rw [he] at hmsg
          exact absurd hmsg (by simp)
        · rintro ⟨_, hnB, _, _, _⟩
          exact absurd (hc2.mp h2) hnB
      · constructor
        · intro hok
          rw [he] at hok
          exact absurd hok (by simp)
        · rintro ⟨_, hnB, _, _, _⟩
          exact absurd (hc2.mp h2) hnB
    · have h2b : ¬((!((items.map itemValueName).contains "message")) = true) := by
        revert h2
        cases (items.map itemValueName).contains "message" <;> simp
      by_cases h3 : ((itemsToPickList items).map itemMatchName).dedup.length
          < ((itemsToPickList items).map itemMatchName).length
      · have he : headerParserInit items fullFormat = Except.error (PyExc.parserDefinitionError,
            "Given items include duplicated match names".toList) := by
          unfold headerParserInit
          rw [if_neg h1, if_neg h2b, if_pos h3]
        refine ⟨⟨fun _ => Or.inr (Or.inr (Or.inl (hc3.mp h3))), fun _ => ⟨_, he⟩⟩, ?_, ?_⟩
        · constructor
          · rintro ⟨msg, hmsg⟩
            rw [he] at hmsg
            exact absurd hmsg (by simp)
          · rintro ⟨_, _, hNodup, _, _⟩
            exact absurd hNodup (hc3.mp h3)
        · constructor
          · intro hok
            rw [he] at hok
            exact absurd hok (by simp)
          · rintro ⟨_, _, hNodup, _, _⟩
            exact absurd hNodup (hc3.mp h3)
      · have hpre : headerParserInit items fullFormat = assembleCompile items fullFormat := by
          unfold headerParserInit
          rw [if_neg h1, if_neg h2b, if_neg h3]
        have hnA : ¬(∀ i ∈ items, itemOptional i = true) := fun h => h1 (hc1.mpr h)
        have hnB : ¬(∀ i ∈ items, itemValueName i ≠ "message") := fun h => h2 (hc2.mpr h)
        have hNodup : ((itemsToPickList items).map itemMatchName).Nodup := by
          by_contra hn
          exact h3 (hc3.mpr hn)
        cases fullFormat with
        | none =>
          have hnD : ¬(∃ fmt, (none : Option (List Nat)) = some fmt ∧
              ∃ i, i < items.length ∧ i ∉ fmt) := by
            rintro ⟨fmt, hfmt, _⟩
            exact Option.noConfusion hfmt
          by_cases h5 : (patternGroupNames items).dedup.length
              < (patternGroupNames items).length
          · have he : headerParserInit items none
                = Except.error (PyExc.reError, "redefinition of group name".toList) := by
              rw [hpre]
              show compileCheck items = _
              unfold compileCheck
              rw [if_pos h5]
            refine ⟨?_, ⟨fun _ => ⟨hnA, hnB, hNodup, hnD, (dedup_length_lt_iff _).mp h5⟩,
              fun _ => ⟨_, he⟩⟩, ?_⟩
            · constructor
              · rintro ⟨msg, hmsg⟩
                rw [he] at hmsg
                exact absurd hmsg (by simp)
              · rintro (h | h | h | h)
                · exact absurd h hnA
                · exact absurd h hnB
                · exact absurd hNodup h
                · exact absurd h hnD
            · constructor
              · intro hok
                rw [he] at hok
                exact absurd hok (by simp)
              · rintro ⟨_, _, _, _, hE⟩
                exact absurd hE ((dedup_length_lt_iff _).mp h5)
          · have hok : headerParserInit items none = Except.ok () := by
              rw [hpre]
              show compileCheck items = _
              unfold compileCheck
              rw [if_neg h5]
            have hE : (patternGroupNames items).Nodup := by
              by_contra hn
              exact h5 ((dedup_length_lt_iff _).mpr hn)
            refine ⟨?_, ?_, ⟨fun _ => ⟨hnA, hnB, hNodup, hnD, hE⟩, fun _ => hok⟩⟩
            · constructor
              · rintro ⟨msg, hmsg⟩
                rw [hok] at hmsg
                exact absurd hmsg (by simp)
              · rintro (h | h | h | h)
                · exact absurd h hnA
                · exact absurd h hnB
                · exact absurd hNodup h
                · exact absurd h hnD
            · constructor
              · rintro ⟨msg, hmsg⟩
                rw [hok] at hmsg
                exact absurd hmsg (by simp)
              · rintro ⟨_, _, _, _, hE2⟩
                exact absurd hE hE2
        | some fmt =>
          cases hf : (List.range items.length).reverse.find? (fun i => !(fmt.contains i)) with
          | some j =>
            have hD : ∃ fmt2, (some fmt : Option (List Nat)) = some fmt2 ∧
                ∃ i, i < items.length ∧ i ∉ fmt2 := by
              refine ⟨fmt, rfl, j, ?_, ?_⟩
              · exact List.mem_range.mp (List.mem_reverse.mp (List.mem_of_find?_eq_some hf))
              · have hp := List.find?_some hf
                have hcj : fmt.contains j = false := by
                  revert hp
                  cases fmt.contains j <;> simp
                exact (contains_eq_false_iff fmt j).mp hcj
            have hffc : fullFormatCheck items.length fmt = Except.error
                (PyExc.parserDefinitionError,
                  "Invalid full_format pattern: no replacer".toList) := by
              unfold fullFormatCheck
              rw [hf]
            have he : headerParserInit items (some fmt) = Except.error
                (PyExc.parserDefinitionError,
                  "Invalid full_format pattern: no replacer".toList) := by
              rw [hpre]
              show (match fullFormatCheck items.length fmt with
                    | Except.error e => Except.error e
                    | Except.ok _ => compileCheck items) = _
              rw [hffc]
            refine ⟨⟨fun _ => Or.inr (Or.inr (Or.inr hD)), fun _ => ⟨_, he⟩⟩, ?_, ?_⟩
            · constructor
              · rintro ⟨msg, hmsg⟩
                rw [he] at hmsg
                exact absurd hmsg (by simp)
              · rintro ⟨_, _, _, hnD, _⟩
                exact absurd hD hnD
            · constructor
              · intro hok
                rw [he] at hok
                exact absurd hok (by simp)
              · rintro ⟨_, _, _, hnD, _⟩
                exact absurd hD hnD
          | none =>
            have hnD : ¬(∃ fmt2, (some fmt : Option (List Nat)) = some fmt2 ∧
                ∃ i, i < items.length ∧ i ∉ fmt2) := by
              rintro ⟨fmt2, hfmt2, i, hi, hni⟩
              injection hfmt2 with heq
              subst heq
              have hall := List.find?_eq_none.mp hf i
                (List.mem_reverse.mpr (List.mem_range.mpr hi))
              have hci : fmt.contains i = true := by
                revert hall
                cases fmt.contains i <;> simp
              exact hni (List.elem_iff.mp hci)
            have hffc : fullFormatCheck items.length fmt = Except.ok () := by
              unfold fullFormatCheck
              rw [hf]
            have hac : assembleCompile items (some fmt) = compileCheck items := by
              show (match fullFormatCheck items.length fmt with
                    | Except.error e => Except.error e
                    | Except.ok _ => compileCheck items) = _
              rw [hffc]
            by_cases h5 : (patternGroupNames items).dedup.length
                < (patternGroupNames items).length
            · have he : headerParserInit items (some fmt)
                  = Except.error (PyExc.reError, "redefinition of group name".toList) := by
                rw [hpre, hac]
                unfold compileCheck
                rw [if_pos h5]
              refine ⟨?_, ⟨fun _ => ⟨hnA, hnB, hNodup, hnD, (dedup_length_lt_iff _).mp h5⟩,
                fun _ => ⟨_, he⟩⟩, ?_⟩
              · constructor
                · rintro ⟨msg, hmsg⟩
                  rw [he] at hmsg
                  exact absurd hmsg (by simp)
                · rintro (h | h | h | h)
                  · exact absurd h hnA
                  · exact absurd h hnB
                  · exact absurd hNodup h
                  · exact absurd h hnD
              · constructor
                · intro hok
                  rw [he] at hok
                  exact absurd hok (by simp)
                · rintro ⟨_, _, _, _, hE⟩
                  exact absurd hE ((dedup_length_lt_iff _).mp h5)
            · have hok : headerParserInit items (some fmt) = Except.ok () := by
                rw [hpre, hac]
                unfold compileCheck
                rw [if_neg h5]
              have hE : (patternGroupNames items).Nodup := by
                by_contra hn
                exact h5 ((dedup_length_lt_iff _).mpr hn)
              refine ⟨?_, ?_, ⟨fun _ => ⟨hnA, hnB, hNodup, hnD, hE⟩, fun _ => hok⟩⟩
              · constructor
                · rintro ⟨msg, hmsg⟩
                  rw [hok] at hmsg
                  exact absurd hmsg (by simp)
                · rintro (h | h | h | h)
                  · exact absurd h hnA
                  · exact absurd h hnB
                  · exact absurd hNodup h
                  · exact absurd h hnD
              · constructor
                · rintro ⟨msg, hmsg⟩
                  rw [hok] at hmsg
                  exact absurd hmsg (by simp)
                · rintro ⟨_, _, _, _, hE2⟩
                  exact absurd hE hE2

/-- Witness for C7 amended at concrete inputs: the empty item list (no
mandatory item, no statement item) raises `ParserDefinitionError`, and
the singleton `[Statement()]` constructs without error. -/
theorem log2seq_C7_amended_witness :
    (∃ msg, headerParserInit ([] : List HItem) none
      = Except.error (PyExc.parserDefinitionError, msg)) ∧
    headerParserInit [stmtItem] none = Except.ok () :=
  ⟨(log2seq_C7_amended [] none).1.mpr (Or.inl (by simp)),
   (log2seq_C7_amended [stmtItem] none).2.2.mpr
     ⟨by decide, by decide, by decide,
      by rintro ⟨fmt, hfmt, _⟩; exact Option.noConfusion hfmt, by decide⟩⟩

/-- C8 fails on the code: the microsecond value is computed in CPython
float arithmetic, and for the 4-digit capture "0157" (d = 4, v = 157) the
binary64 evaluation of `157 / 10 ** 4 * 10 ** 6` is
15699.999999999998..., which `int` truncates to 15699, while the exact
value `v / 10 ^ d * 10 ^ 6` truncated is 15700. The two examples quoted
by the claim do evaluate as stated ("5" gives 500000 and "012345" gives
12345). -/
theorem log2seq_C8_float_truncation :
    pickMicrosecond 157 4 = 15699 ∧
    157 * 10 ^ 6 / 10 ^ 4 = 15700 ∧
    pickMicrosecond 5 1 = 500000 ∧
    pickMicrosecond 12345 6 = 12345 := by
  decide

/-- C9 fails on the code, which carries two divergent decoders.
`TimestampParser._str2tz` (parse.py:44-73): a numeric offset such as
"+09:00" reaches line 65, which evaluates the undefined name
`datetime_timedelta`, so Python raises NameError instead of returning a
fixed-offset timezone; "Z" is not special-cased (the lowered "z" is
neither numeric nor "utc"/"gmt") and yields local time instead of a zero
offset; lowercased "utc"/"gmt" do map to UTC and other abbreviations such
as "est" do map to local time. `Time.parse_tz` (header.py:594-619): "Z"
does map to UTC and "+09:00" to a +9h fixed offset (the working copy of
the same algorithm, showing the NameError in parse.py is a slip), but
"UTC"/"GMT" raise IndexError at the subscript `z[3]`. -/
theorem log2seq_C9_tz_decoder_eval :
    str2tz "+09:00".toList = Except.error (PyExc.nameError, []) ∧
    str2tz "Z".toList = Except.ok none ∧
    str2tz "UTC".toList = Except.ok (some utcTz) ∧
    str2tz "est".toList = Except.ok none ∧
    parseTz "UTC".toList = Except.error (PyExc.indexError, []) ∧
    parseTz "Z".toList = Except.ok utcTz ∧
    parseTz "+09:00".toList = Except.ok ⟨32400000000⟩ := by
  decide

/-- C10: `LogParser.process_line` returns Python `None` exactly for the
lines that are empty after stripping trailing newline characters — for
every rule list and every action list, without consulting either (the
result is `ok none` uniformly in `rules` and `acts`) and without raising;
for a non-empty stripped line the call never returns `None`: it either
raises or returns the parsed dict. -/
theorem log2seq_C10_empty_line (rules : List HeaderRule) (acts : List Action)
    (line : Str) :
    (rstripNl line = [] → logProcessLine rules acts line = Except.ok none) ∧
    (rstripNl line ≠ [] → logProcessLine rules acts line ≠ Except.ok none) := by
  constructor
  · intro h
    simp [logProcessLine, h]
  · intro h
    simp only [logProcessLine]
    rw [if_neg h]
    cases processHeader rules (rstripNl line) with
    | error e => simp
    | ok d =>
      cases hk : kfind d "message" with
      | none => simp [hk]
      | some v =>
        cases v with
        | vstr mes =>
          cases hs : stmtProcessLine acts mes with
          | error e => simp [hk, hs]
          | ok p =>
            obtain ⟨lw, ls⟩ := p
            simp [hk, hs]
        | int n => simp [hk]
        | pynone => simp [hk]
        | date y m d => simp [hk]
        | time hh mi ss us tz => simp [hk]
        | datetime y mo d hh mi ss us tz => simp [hk]
        | tzv tz => simp [hk]
        | strlist ws => simp [hk]

/-- Witness for C10 at concrete inputs: a line of two newlines is parsed
to `None` with no rules consulted, and the non-empty line "x" is not. -/
theorem log2seq_C10_empty_line_witness :
    logProcessLine [] [] "\n\n".toList = Except.ok none ∧
    logProcessLine [noneRule] [] "x".toList ≠ Except.ok none :=
  ⟨(log2seq_C10_empty_line [] [] "\n\n".toList).1 (by decide),
   (log2seq_C10_empty_line [noneRule] [] "x".toList).2 (by decide)⟩

end Log2seq
